import Mathlib

/-!
# BirchVault desktop — local store and sync engine: a shallow embedding

This file embeds the data model and the operations of the BirchVault
desktop application's database layer (`src-tauri/src/db.rs`) and sync
engine (`src-tauri/src/sync.rs`) as executable Lean definitions, and
proves (or refutes) the specification's claims about them.

Modelling conventions:
* RFC3339 timestamp strings are modelled as `Nat` (their lexicographic
  order agrees with chronological order for a fixed UTC format); token
  expiry epoch seconds (`DateTime::timestamp()`, an `i64`) are `Int`.
* `serde_json::to_string` is an oracle parameter `ser : VaultItem → Option String`
  (`none` models a serialization error), so that its failure behaviour
  can be studied without committing to a concrete JSON encoder.
* Each `conn.execute` statement of the Rust code auto-commits (the code
  opens no explicit transaction except in the two `bulk_upsert`
  functions), so fallible operations return the state reached by the
  statements that ran *before* the failure together with the error:
  type `DBState × Except String α`.
* Remote HTTP calls are oracles (`… → Bool` success flags, or an
  `Except` result), and the network activity of an operation is
  recorded in an explicit event trace so that "no request was issued"
  is a statement about the trace.
-/

/-- `vault_items` row, mirroring `struct VaultItem` in `db.rs`. -/
structure VaultItem where
  id : String
  encrypted_data : String
  item_type : String
  folder_id : Option String
  is_favorite : Bool
  deleted_at : Option Nat
  synced_at : Option Nat
  local_updated_at : Nat
  server_updated_at : Option Nat
deriving Repr, DecidableEq

/-- `folders` row, mirroring `struct Folder` in `db.rs`. -/
structure Folder where
  id : String
  name : String
  synced_at : Option Nat
  local_updated_at : Nat
deriving Repr, DecidableEq

/-- `sync_queue` row, mirroring `struct SyncQueueItem` in `db.rs`.
`id` is the AUTOINCREMENT rowid (the outbox sequence id). -/
structure SyncQueueItem where
  id : Nat
  operation : String
  table_name : String
  record_id : String
  payload : Option String
  created_at : Nat
deriving Repr, DecidableEq

/-- `user_session` row (singleton, `id = 1`), mirroring `struct UserSession`.
`expires_at` is kept as parsed epoch seconds (the Rust code stores an
RFC3339 string and parses it back with `DateTime::parse_from_rfc3339`). -/
structure UserSession where
  user_id : String
  email : String
  access_token : String
  refresh_token : String
  expires_at : Int
  last_sync_at : Option Nat
deriving Repr, DecidableEq

/-- The SQLite database contents relevant to the spec's claims:
the `vault_items`, `folders`, `sync_queue` and `user_session` tables.
`sync_queue` is kept in rowid (insertion) order; `next_queue_id` is the
AUTOINCREMENT counter. -/
structure DBState where
  vault_items : List VaultItem
  folders : List Folder
  sync_queue : List SyncQueueItem
  next_queue_id : Nat
  session : Option UserSession
deriving Repr, DecidableEq

/-- `ORDER BY local_updated_at DESC` comparison used by `get_all_vault_items`. -/
def updatedDesc (a b : VaultItem) : Prop := b.local_updated_at ≤ a.local_updated_at

instance : DecidableRel updatedDesc := fun a b => by
  unfold updatedDesc; infer_instance

/-- `ORDER BY deleted_at DESC` comparison used by `get_trashed_items`
(`deleted_at` is non-NULL on every selected row; NULL sorts first in
SQLite, hence the `Option` order with `none` largest here is irrelevant
on the selected rows — we compare the unwrapped values, defaulting to 0). -/
def deletedDesc (a b : VaultItem) : Prop :=
  b.deleted_at.getD 0 ≤ a.deleted_at.getD 0

instance : DecidableRel deletedDesc := fun a b => by
  unfold deletedDesc; infer_instance

/-- `get_all_vault_items` (db.rs): `SELECT … FROM vault_items WHERE
deleted_at IS NULL ORDER BY local_updated_at DESC`. -/
def get_all_vault_items (db : DBState) : List VaultItem :=
  (db.vault_items.filter (fun it => it.deleted_at = none)).insertionSort updatedDesc

/-- `get_trashed_items` (db.rs): `SELECT … WHERE deleted_at IS NOT NULL
ORDER BY deleted_at DESC`. -/
def get_trashed_items (db : DBState) : List VaultItem :=
  (db.vault_items.filter (fun it => it.deleted_at ≠ none)).insertionSort deletedDesc

/-- `get_vault_item` (db.rs): `SELECT … WHERE id = ?1`, `.optional()`. -/
def get_vault_item (id : String) (db : DBState) : Option VaultItem :=
  db.vault_items.find? (fun it => it.id = id)

/-- `add_to_sync_queue_internal` (db.rs). The payload is
`payload.map(|p| serde_json::to_string(p).ok()).flatten()`: a
serialization failure is mapped to `None` (NULL payload) and the INSERT
still runs. `ser` is the serialization oracle, already applied to the
payload when one is present. -/
def add_to_sync_queue_internal (now : Nat) (operation table_name record_id : String)
    (payload_json : Option String) (db : DBState) : DBState :=
  { db with
    sync_queue := db.sync_queue ++
      [⟨db.next_queue_id, operation, table_name, record_id, payload_json, now⟩],
    next_queue_id := db.next_queue_id + 1 }

/-- `insert_vault_item` (db.rs): a plain `INSERT` (no `OR REPLACE`), so a
row whose `id` already exists makes SQLite raise a UNIQUE-constraint
error and the function returns early via `?` before touching the sync
queue. On success it appends one `create` outbox entry whose payload is
the serialized argument. -/
def insert_vault_item (ser : VaultItem → Option String) (now : Nat) (item : VaultItem)
    (db : DBState) : DBState × Except String Unit :=
  if db.vault_items.any (fun it => it.id = item.id) then
    (db, .error "UNIQUE constraint failed: vault_items.id")
  else
    let db1 := { db with vault_items := db.vault_items ++ [item] }
    let db2 := add_to_sync_queue_internal now "create" "vault_items" item.id
      ((some item).bind ser) db1
    (db2, .ok ())

/-- `update_vault_item` (db.rs): `UPDATE vault_items SET encrypted_data,
item_type, folder_id, is_favorite, deleted_at, local_updated_at = now
WHERE id = ?1` (zero matched rows is not an error), then one `update`
outbox entry whose payload is the serialized *argument* (whose
`local_updated_at` is the caller's value, not `now`). -/
def update_vault_item (ser : VaultItem → Option String) (now : Nat) (item : VaultItem)
    (db : DBState) : DBState × Except String Unit :=
  let rows := db.vault_items.map (fun r =>
    if r.id = item.id then
      { r with
        encrypted_data := item.encrypted_data
        item_type := item.item_type
        folder_id := item.folder_id
        is_favorite := item.is_favorite
        deleted_at := item.deleted_at
        local_updated_at := now }
    else r)
  let db1 := { db with vault_items := rows }
  (add_to_sync_queue_internal now "update" "vault_items" item.id
    ((some item).bind ser) db1, .ok ())

/-- `soft_delete_vault_item` (db.rs): sets `deleted_at = now,
local_updated_at = now` on the row, then enqueues an `update` entry with
NULL payload (`None::<&VaultItem>`). -/
def soft_delete_vault_item (now : Nat) (id : String) (db : DBState) :
    DBState × Except String Unit :=
  let rows := db.vault_items.map (fun r =>
    if r.id = id then { r with deleted_at := some now, local_updated_at := now } else r)
  (add_to_sync_queue_internal now "update" "vault_items" id none
    { db with vault_items := rows }, .ok ())

/-- `restore_vault_item` (db.rs): sets `deleted_at = NULL,
local_updated_at = now`, then enqueues an `update` entry with NULL payload. -/
def restore_vault_item (now : Nat) (id : String) (db : DBState) :
    DBState × Except String Unit :=
  let rows := db.vault_items.map (fun r =>
    if r.id = id then { r with deleted_at := none, local_updated_at := now } else r)
  (add_to_sync_queue_internal now "update" "vault_items" id none
    { db with vault_items := rows }, .ok ())

/-- `permanently_delete_vault_item` (db.rs): `DELETE FROM vault_items
WHERE id = ?1`, then a `delete` outbox entry with NULL payload. -/
def permanently_delete_vault_item (now : Nat) (id : String) (db : DBState) :
    DBState × Except String Unit :=
  (add_to_sync_queue_internal now "delete" "vault_items" id none
    { db with vault_items := db.vault_items.filter (fun r => r.id ≠ id) }, .ok ())

/-- `ORDER BY created_at ASC` on the `idx_sync_queue_created` index:
equal `created_at` keys come back in rowid order (the index key is
`(created_at, rowid)`), so the result order is lexicographic on
`(created_at, id)`. -/
def queueLe (a b : SyncQueueItem) : Prop :=
  a.created_at < b.created_at ∨ (a.created_at = b.created_at ∧ a.id ≤ b.id)

instance : DecidableRel queueLe := fun a b => by
  unfold queueLe; infer_instance

/-- `get_pending_sync_items` (db.rs): `SELECT … FROM sync_queue ORDER BY
created_at ASC`. -/
def get_pending_sync_items (db : DBState) : List SyncQueueItem :=
  db.sync_queue.insertionSort queueLe

/-- `remove_from_sync_queue` (db.rs): `DELETE FROM sync_queue WHERE id = ?1`. -/
def remove_from_sync_queue (qid : Nat) (db : DBState) : DBState :=
  { db with sync_queue := db.sync_queue.filter (fun e => e.id ≠ qid) }

/-- `clear_sync_queue` (db.rs): `DELETE FROM sync_queue`. -/
def clear_sync_queue (db : DBState) : DBState :=
  { db with sync_queue := [] }

/-- `mark_item_synced` (db.rs): for `"vault_items"` sets `synced_at` and
`server_updated_at` to now on the row; for `"folders"` sets `synced_at`;
any other table name is a no-op. -/
def mark_item_synced (now : Nat) (table_name record_id : String) (db : DBState) : DBState :=
  if table_name = "vault_items" then
    { db with vault_items := db.vault_items.map (fun r =>
        if r.id = record_id then
          { r with synced_at := some now, server_updated_at := some now }
        else r) }
  else if table_name = "folders" then
    { db with folders := db.folders.map (fun f =>
        if f.id = record_id then { f with synced_at := some now } else f) }
  else db

/-- `get_session` (db.rs). -/
def get_session (db : DBState) : Option UserSession := db.session

/-- `save_session` (db.rs): `INSERT OR REPLACE` of the singleton row. -/
def save_session (s : UserSession) (db : DBState) : DBState :=
  { db with session := some s }

/-- `update_last_sync` (db.rs): `UPDATE user_session SET last_sync_at = now
WHERE id = 1` (a no-op when no session row exists). -/
def update_last_sync (now : Nat) (db : DBState) : DBState :=
  { db with session := db.session.map (fun s => { s with last_sync_at := some now }) }

/-- `clear_session` (db.rs): `DELETE FROM user_session WHERE id = 1`. -/
def clear_session (db : DBState) : DBState :=
  { db with session := none }

/-- `bulk_upsert_vault_items` (db.rs): inside one explicit transaction,
`INSERT OR REPLACE` each row by id. -/
def bulk_upsert_vault_items (items : List VaultItem) (db : DBState) : DBState :=
  { db with vault_items := items.foldl (fun rows it =>
      if rows.any (fun r => r.id = it.id) then
        rows.map (fun r => if r.id = it.id then it else r)
      else rows ++ [it]) db.vault_items }

/-- `bulk_upsert_folders` (db.rs): one transaction of `INSERT OR REPLACE`. -/
def bulk_upsert_folders (fs : List Folder) (db : DBState) : DBState :=
  { db with folders := fs.foldl (fun rows f =>
      if rows.any (fun r => r.id = f.id) then
        rows.map (fun r => if r.id = f.id then f else r)
      else rows ++ [f]) db.folders }

/-- `clear_all_data` (db.rs): an `execute_batch` of four DELETEs (no
BEGIN/COMMIT, see `clear_all_data_f` for the statement-level view). -/
def clear_all_data (db : DBState) : DBState :=
  { db with vault_items := [], folders := [], sync_queue := [], session := none }

/-!
## Statement-level fault injection

The Rust code issues its SQL statements over one shared connection with
*no* explicit transaction except in the two `bulk_upsert` functions: each
`conn.execute` auto-commits on its own, and a failing statement makes the
enclosing function return early via `?`, keeping every earlier
statement's effect. The `*_f` variants below make each fallible
statement's fault a Boolean parameter. A faulting statement itself has no
effect on the state (SQLite rolls back only the failing statement). -/

/-- `insert_vault_item` with statement-level faults: `fRow` faults the
row INSERT, `fQueue` faults the sync-queue INSERT
(`add_to_sync_queue_internal`). The row INSERT also fails by itself on a
duplicate id. A fault in the queue INSERT happens *after* the row INSERT
has auto-committed. -/
def insert_vault_item_f (ser : VaultItem → Option String) (now : Nat) (item : VaultItem)
    (fRow fQueue : Bool) (db : DBState) : DBState × Except String Unit :=
  if fRow then (db, .error "storage fault: insert row")
  else if db.vault_items.any (fun it => it.id = item.id) then
    (db, .error "UNIQUE constraint failed: vault_items.id")
  else
    let db1 := { db with vault_items := db.vault_items ++ [item] }
    if fQueue then (db1, .error "storage fault: insert sync_queue")
    else
      (add_to_sync_queue_internal now "create" "vault_items" item.id
        ((some item).bind ser) db1, .ok ())

/-- `clear_all_data` with statement-level faults: the `execute_batch`
runs `DELETE FROM vault_items; DELETE FROM folders; DELETE FROM
sync_queue; DELETE FROM user_session;` with no BEGIN/COMMIT, so each
DELETE auto-commits and a fault aborts the batch keeping the earlier
deletions. -/
def clear_all_data_f (f1 f2 f3 f4 : Bool) (db : DBState) : DBState × Except String Unit :=
  if f1 then (db, .error "storage fault: delete vault_items")
  else
    let db1 := { db with vault_items := [] }
    if f2 then (db1, .error "storage fault: delete folders")
    else
      let db2 := { db1 with folders := [] }
      if f3 then (db2, .error "storage fault: delete sync_queue")
      else
        let db3 := { db2 with sync_queue := [] }
        if f4 then (db3, .error "storage fault: delete user_session")
        else ({ db3 with session := none }, .ok ())

/-!
## Sync engine (`sync.rs`)

Network effects are oracles; every issued request is recorded in an
event trace. `Oracles` bundles the behaviour of the environment during
one sync cycle: per-record success of the remote upsert/delete calls,
the refresh endpoint's answer, the pull endpoints' answers, the wall
clock readings, and a possible storage fault in the final
`update_last_sync`. -/

/-- One network request issued by the engine. -/
inductive NetEvent where
  | refresh
  | upsertItem (id : String)
  | upsertFolder (id : String)
  | deleteReq (table id : String)
  | pullFolders
  | pullItems
deriving Repr, DecidableEq

/-- Body of a successful refresh response
(`SupabaseAuthResponse`: tokens, user, expiry). -/
structure AuthTokens where
  user_id : String
  email : String
  access_token : String
  refresh_token : String
  expires_at : Int
deriving Repr, DecidableEq

/-- Server wire shape of a vault item (`SupabaseVaultItem`). -/
structure SupabaseVaultItem where
  id : String
  user_id : String
  encrypted_data : String
  item_type : String
  folder_id : Option String
  deleted_at : Option Nat
  created_at : Nat
  updated_at : Nat
deriving Repr, DecidableEq

/-- Server wire shape of a folder (`SupabaseFolder`). -/
structure SupabaseFolder where
  id : String
  user_id : String
  name : String
  created_at : Nat
  updated_at : Nat
deriving Repr, DecidableEq

/-- Environment behaviour during one sync cycle. -/
structure Oracles where
  nowSec : Int
  refreshResult : Except String AuthTokens
  upsertItemOk : String → Bool
  upsertFolderOk : String → Bool
  deleteOk : String → String → Bool
  markNow : Nat
  pullFoldersResult : Except String (List SupabaseFolder)
  pullItemsResult : Except String (List SupabaseVaultItem)
  pullNow : Nat
  tEnd : Nat
  lastSyncFault : Bool

/-- In-memory `SyncStatus` block (`sync.rs`), guarded by the engine's
RwLock. -/
structure SyncStatus where
  is_syncing : Bool
  last_sync_at : Option Nat
  pending_changes : Nat
  is_online : Bool
deriving Repr, DecidableEq

/-- Engine state: the shared database plus the status block. -/
structure EngineState where
  db : DBState
  status : SyncStatus
deriving Repr, DecidableEq

/-- `get_status` (sync.rs): copies the status block, recomputing
`pending_changes` as the current outbox length. -/
def get_status (eng : EngineState) : SyncStatus :=
  { is_syncing := eng.status.is_syncing
    last_sync_at := eng.status.last_sync_at
    pending_changes := (get_pending_sync_items eng.db).length
    is_online := eng.status.is_online }

/-- `refresh_token` (sync.rs), response part: the session built from a
successful refresh response keeps the old session's `last_sync_at`. -/
def refreshedSession (tk : AuthTokens) (session : UserSession) : UserSession :=
  { user_id := tk.user_id, email := tk.email
    access_token := tk.access_token, refresh_token := tk.refresh_token
    expires_at := tk.expires_at, last_sync_at := session.last_sync_at }

/-- `ensure_valid_token` (sync.rs): refresh iff
`expires_at.timestamp() < Utc::now().timestamp() + 300` (strict `<`).
On refresh, the new session keeps the old `last_sync_at`
(`refresh_token` copies it) and is persisted with `save_session`.
Returns the possibly-updated db, the trace, and the session or error. -/
def ensure_valid_token (o : Oracles) (session : UserSession) (db : DBState) :
    DBState × List NetEvent × Except String UserSession :=
  if session.expires_at < o.nowSec + 300 then
    match o.refreshResult with
    | .ok tk =>
        (save_session (refreshedSession tk session) db, [.refresh],
          .ok (refreshedSession tk session))
    | .error e => (db, [.refresh], .error e)
  else (db, [], .ok session)

/-- `push_upsert` (sync.rs): for `"vault_items"`, re-fetch the row by id;
when the row is missing, *no request is issued* and the result is `Ok`.
For `"folders"`, same via `get_all_folders().find`. Other table names
are a no-op `Ok`. -/
def push_upsert (o : Oracles) (table id : String) (db : DBState) :
    List NetEvent × Except String Unit :=
  if table = "vault_items" then
    match get_vault_item id db with
    | some item =>
        if o.upsertItemOk item.id then ([.upsertItem item.id], .ok ())
        else ([.upsertItem item.id], .error "Failed to sync vault item")
    | none => ([], .ok ())
  else if table = "folders" then
    match db.folders.find? (fun f => f.id = id) with
    | some f =>
        if o.upsertFolderOk f.id then ([.upsertFolder f.id], .ok ())
        else ([.upsertFolder f.id], .error "Failed to sync folder")
    | none => ([], .ok ())
  else ([], .ok ())

/-- `push_delete` (sync.rs): always issues the DELETE request. -/
def push_delete (o : Oracles) (table id : String) :
    List NetEvent × Except String Unit :=
  if o.deleteOk table id then ([.deleteReq table id], .ok ())
  else ([.deleteReq table id], .error "Failed to delete")

/-- One iteration of the `push_changes` loop body on entry `e`:
dispatch on the operation; on success, `remove_from_sync_queue` then
`mark_item_synced`; on failure, log and continue. Besides the db we
thread the network trace and the list of `mark_item_synced` invocations
(table, record id) — the latter so that "markSynced was still invoked"
is a statement about the model. -/
def push_entry (o : Oracles) (e : SyncQueueItem) (db : DBState) :
    DBState × List NetEvent × List (String × String) :=
  let r : List NetEvent × Except String Unit :=
    if e.operation = "create" ∨ e.operation = "update" then
      push_upsert o e.table_name e.record_id db
    else if e.operation = "delete" then
      push_delete o e.table_name e.record_id
    else ([], .ok ())
  match r with
  | (ev, .ok _) =>
      (mark_item_synced o.markNow e.table_name e.record_id
        (remove_from_sync_queue e.id db), ev, [(e.table_name, e.record_id)])
  | (ev, .error _) => (db, ev, [])

/-- `push_changes` (sync.rs): iterate `get_pending_sync_items()` in
order, applying `push_entry` to each. A per-item remote failure is
caught by the `match` in the loop body (logged and skipped), so the
batch result is `Ok` no matter how many entries failed; the fourth
component mirrors the Rust `Result<()>` return value. -/
def push_changes_loop (o : Oracles) (entries : List SyncQueueItem) (db : DBState) :
    DBState × List NetEvent × List (String × String) × Except String Unit :=
  match entries with
  | [] => (db, [], [], .ok ())
  | e :: rest =>
      let (db1, ev1, mk1) := push_entry o e db
      let (db2, ev2, mk2, r) := push_changes_loop o rest db1
      (db2, ev1 ++ ev2, mk1 ++ mk2, r)

/-- `push_changes` proper: the loop run on the pending snapshot. -/
def push_changes (o : Oracles) (db : DBState) :
    DBState × List NetEvent × List (String × String) × Except String Unit :=
  push_changes_loop o (get_pending_sync_items db) db

/-- `pull_folders` (sync.rs): GET; on success map the wire rows
(`synced_at := now`, `local_updated_at := updated_at`) and
`bulk_upsert_folders`. -/
def pull_folders (o : Oracles) (db : DBState) :
    DBState × List NetEvent × Except String Unit :=
  match o.pullFoldersResult with
  | .ok fs =>
      let mapped := fs.map (fun f =>
        ({ id := f.id, name := f.name, synced_at := some o.pullNow
           local_updated_at := f.updated_at } : Folder))
      (bulk_upsert_folders mapped db, [.pullFolders], .ok ())
  | .error e => (db, [.pullFolders], .error e)

/-- `pull_vault_items` (sync.rs): GET; on success map the wire rows
(`is_favorite := false`, `synced_at := now`,
`local_updated_at := server_updated_at := updated_at`) and
`bulk_upsert_vault_items`. -/
def pull_vault_items (o : Oracles) (db : DBState) :
    DBState × List NetEvent × Except String Unit :=
  match o.pullItemsResult with
  | .ok its =>
      let mapped := its.map (fun i =>
        ({ id := i.id, encrypted_data := i.encrypted_data, item_type := i.item_type
           folder_id := i.folder_id, is_favorite := false, deleted_at := i.deleted_at
           synced_at := some o.pullNow, local_updated_at := i.updated_at
           server_updated_at := some i.updated_at } : VaultItem))
      (bulk_upsert_vault_items mapped db, [.pullItems], .ok ())
  | .error e => (db, [.pullItems], .error e)

/-- `pull_changes` (sync.rs): folders first, then items; either failure
propagates. -/
def pull_changes (o : Oracles) (db : DBState) :
    DBState × List NetEvent × Except String Unit :=
  let (db1, ev1, r1) := pull_folders o db
  match r1 with
  | .error e => (db1, ev1, .error e)
  | .ok _ =>
      let (db2, ev2, r2) := pull_vault_items o db1
      (db2, ev1 ++ ev2, r2)

/-- `perform_sync` (sync.rs): require a session, `ensure_valid_token`,
push, pull. -/
def perform_sync (o : Oracles) (db : DBState) :
    DBState × List NetEvent × Except String Unit :=
  match get_session db with
  | none => (db, [], .error "Not logged in")
  | some session =>
      let (db1, ev1, r1) := ensure_valid_token o session db
      match r1 with
      | .error e => (db1, ev1, .error e)
      | .ok session' =>
          let (db2, ev2, _) := push_changes o db1
          let (db3, ev3, r3) := pull_changes o db2
          -- the session tag on requests carries session'.user_id; the
          -- trace abstracts the request bodies, so session' is unused here
          let _ := session'
          (db3, ev1 ++ ev2 ++ ev3, r3)

/-- The single-flight guard of `sync` (sync.rs): one atomic
read-modify-write under the status write lock, *before any network or
store activity*. Returns the state after the check-and-set and whether
this caller entered (`false` = a cycle is already in flight). -/
def sync_enter (eng : EngineState) : EngineState × Bool :=
  if eng.status.is_syncing then (eng, false)
  else ({ eng with status := { eng.status with is_syncing := true } }, true)

/-- `sync` (sync.rs): single-flight entry via `sync_enter` (a caller
that does not enter returns the in-flight status immediately — no
network, no store access); otherwise run `perform_sync`, clear
`is_syncing`, and on success stamp `status.last_sync_at := now` *then*
persist it with `db.update_last_sync()?` (whose storage fault makes
`sync` return the error after the status block was already stamped). -/
def sync (o : Oracles) (eng : EngineState) :
    EngineState × List NetEvent × Except String SyncStatus :=
  match sync_enter eng with
  | (_, false) => (eng, [], .ok eng.status)
  | (engIn, true) =>
    let (db1, ev, r) := perform_sync o engIn.db
    let st2 := { engIn.status with
      is_syncing := false
      last_sync_at := if r.toBool then some o.tEnd else engIn.status.last_sync_at }
    match r with
    | .ok _ =>
        if o.lastSyncFault then
          ({ db := db1, status := st2 }, ev, .error "storage fault: update_last_sync")
        else
          let db2 := update_last_sync o.tEnd db1
          let eng' : EngineState := { db := db2, status := st2 }
          (eng', ev, .ok (get_status eng'))
    | .error e => ({ db := db1, status := st2 }, ev, .error e)

/-- `initial_sync` (sync.rs): full pull (no timestamp filter), then
unconditionally `clear_sync_queue` and `update_last_sync`. -/
def initial_sync (o : Oracles) (db : DBState) :
    DBState × List NetEvent × Except String Unit :=
  let (db1, ev1, r1) := pull_folders o db
  match r1 with
  | .error e => (db1, ev1, .error e)
  | .ok _ =>
      let (db2, ev2, r2) := pull_vault_items o db1
      match r2 with
      | .error e => (db2, ev1 ++ ev2, .error e)
      | .ok _ => (update_last_sync o.tEnd (clear_sync_queue db2), ev1 ++ ev2, .ok ())

/-!
## Derived specification functions and concrete fixtures -/

/-- Verdict of the push loop on outbox entry `e`, read off
`push_upsert`/`push_delete`: a create/update whose record row is
missing locally counts as *success without any request*; otherwise
success is the remote oracle's verdict for the record id (the row the
request is built from is looked up by that id). Depends on the db only
through which row ids exist. -/
def entrySucceeds (o : Oracles) (db : DBState) (e : SyncQueueItem) : Bool :=
  if e.operation = "create" ∨ e.operation = "update" then
    if e.table_name = "vault_items" then
      !db.vault_items.any (fun it => it.id = e.record_id) || o.upsertItemOk e.record_id
    else if e.table_name = "folders" then
      !db.folders.any (fun f => f.id = e.record_id) || o.upsertFolderOk e.record_id
    else true
  else if e.operation = "delete" then o.deleteOk e.table_name e.record_id
  else true

/-- One mutating Local Store call on records, as in the spec's claim
about call sequences. -/
inductive MutCall where
  | create (item : VaultItem)
  | update (item : VaultItem)
  | softDelete (id : String)
  | restore (id : String)
  | purge (id : String)
deriving Repr, DecidableEq

/-- Dispatch one mutating call at wall-clock time `now`. -/
def applyCall (ser : VaultItem → Option String) (now : Nat) (c : MutCall)
    (db : DBState) : DBState × Except String Unit :=
  match c with
  | .create it => insert_vault_item ser now it db
  | .update it => update_vault_item ser now it db
  | .softDelete id => soft_delete_vault_item now id db
  | .restore id => restore_vault_item now id db
  | .purge id => permanently_delete_vault_item now id db

/-- Run a sequence of timestamped mutating calls (ignoring per-call
results, as a caller that keeps going would). -/
def applyCalls (ser : VaultItem → Option String) :
    List (Nat × MutCall) → DBState → DBState
  | [], db => db
  | (t, c) :: rest, db => applyCalls ser rest (applyCall ser t c db).1

/-- Every call in the sequence succeeds. -/
def callsOk (ser : VaultItem → Option String) :
    List (Nat × MutCall) → DBState → Bool
  | [], _ => true
  | (t, c) :: rest, db =>
      match applyCall ser t c db with
      | (db', .ok _) => callsOk ser rest db'
      | (_, .error _) => false

/-- A concrete total serializer (stands in for a `serde_json::to_string`
call that succeeds). -/
def serOk : VaultItem → Option String :=
  fun it => some (it.id ++ "|" ++ it.encrypted_data ++ "|" ++ toString it.local_updated_at)

/-- A serializer that always fails (a `serde_json::to_string` error). -/
def serFail : VaultItem → Option String := fun _ => none

/-- Concrete vault item fixture. -/
def itemA : VaultItem :=
  { id := "a", encrypted_data := "cipherA", item_type := "login", folder_id := none
    is_favorite := false, deleted_at := none, synced_at := none
    local_updated_at := 10, server_updated_at := none }

/-- A second concrete vault item fixture. -/
def itemB : VaultItem :=
  { id := "b", encrypted_data := "cipherB", item_type := "note", folder_id := none
    is_favorite := true, deleted_at := none, synced_at := none
    local_updated_at := 11, server_updated_at := none }

/-- The empty database. -/
def dbEmpty : DBState :=
  { vault_items := [], folders := [], sync_queue := [], next_queue_id := 0, session := none }

/-- Concrete session fixture. -/
def sessA : UserSession :=
  { user_id := "u1", email := "u@x", access_token := "at", refresh_token := "rt"
    expires_at := 1000, last_sync_at := none }

/-- Concrete refresh-response fixture (tokens visibly different from
`sessA`'s). -/
def tokensB : AuthTokens :=
  { user_id := "u1", email := "u@x", access_token := "at2", refresh_token := "rt2"
    expires_at := 5000 }

/-- An environment where every remote call succeeds and the final
`update_last_sync` works; clock readings are small concrete numbers. -/
def oraclesOk : Oracles :=
  { nowSec := 0, refreshResult := .ok tokensB
    upsertItemOk := fun _ => true, upsertFolderOk := fun _ => true
    deleteOk := fun _ _ => true, markNow := 20
    pullFoldersResult := .ok [], pullItemsResult := .ok []
    pullNow := 21, tEnd := 22, lastSyncFault := false }

/-!
## Claims C1, C4, C5 -/

/-- C1, counterexample: the claim says the item upsert "never fails on a
duplicate id". Inserting `itemA` twice makes the second
`insert_vault_item` return the UNIQUE-constraint error: the operation
is a plain `INSERT`, not an upsert. -/
theorem C1_counterexample :
    (insert_vault_item serOk 1 itemA ((insert_vault_item serOk 0 itemA dbEmpty).1)).2 =
      .error "UNIQUE constraint failed: vault_items.id" := rfl

/-- C1, amended: on a fresh id, `insert_vault_item` succeeds, stores the
row, and appends exactly one `create` outbox entry whose payload is the
serialized argument (which here coincides with the stored row); on a
duplicate id it fails with the constraint error and leaves the store
unchanged (no outbox entry). `update_vault_item` never fails and appends
exactly one `update` outbox entry, but its payload serializes the
*argument*, whose `local_updated_at` is not the `now` written to the row. -/
theorem C1_upsert_characterization (ser : VaultItem → Option String) (now : Nat)
    (item : VaultItem) (db : DBState) :
    ((∀ r ∈ db.vault_items, r.id ≠ item.id) →
      (insert_vault_item ser now item db).2 = .ok ()
      ∧ (insert_vault_item ser now item db).1.vault_items = db.vault_items ++ [item]
      ∧ (insert_vault_item ser now item db).1.sync_queue =
          db.sync_queue ++
            [⟨db.next_queue_id, "create", "vault_items", item.id, ser item, now⟩])
    ∧ ((∃ r ∈ db.vault_items, r.id = item.id) →
      insert_vault_item ser now item db =
        (db, .error "UNIQUE constraint failed: vault_items.id"))
    ∧ ((update_vault_item ser now item db).2 = .ok ()
      ∧ (update_vault_item ser now item db).1.sync_queue =
          db.sync_queue ++
            [⟨db.next_queue_id, "update", "vault_items", item.id, ser item, now⟩]) := by
  refine ⟨fun hfresh => ?_, fun hdup => ?_, ?_, ?_⟩
  · have h : db.vault_items.any (fun it => it.id = item.id) = false := by
      simp only [List.any_eq_false, decide_eq_true_eq]
      exact fun r hr => hfresh r hr
    simp [insert_vault_item, add_to_sync_queue_internal, h]
  · have h : db.vault_items.any (fun it => it.id = item.id) = true := by
      simp only [List.any_eq_true, decide_eq_true_eq]
      exact hdup
    simp [insert_vault_item, h]
  · simp [update_vault_item]
  · simp [update_vault_item, add_to_sync_queue_internal]

/-- C1, witness: the amended characterization applied to inserting
`itemA` into the empty store. -/
theorem C1_upsert_characterization_witness :
    (insert_vault_item serOk 5 itemA dbEmpty).2 = .ok ()
    ∧ (insert_vault_item serOk 5 itemA dbEmpty).1.sync_queue =
        [⟨0, "create", "vault_items", itemA.id, serOk itemA, 5⟩] := by
  have h := (C1_upsert_characterization serOk 5 itemA dbEmpty).1
    (by intro r hr; simp [dbEmpty] at hr)
  exact ⟨h.1, by simpa [dbEmpty] using h.2.2⟩

/-- C4, counterexample: the claim says `ensure_valid_token` refreshes
exactly when `expires_at ≤ now + 300`. At the boundary
`expires_at = now + 300` (here 1000 = 700 + 300) the code's strict `<`
does *not* refresh: the session comes back unchanged, nothing is
persisted, and no refresh request is issued. -/
theorem C4_counterexample :
    sessA.expires_at ≤ ({ oraclesOk with nowSec := 700 } : Oracles).nowSec + 300
    ∧ ensure_valid_token { oraclesOk with nowSec := 700 } sessA dbEmpty =
        (dbEmpty, [], .ok sessA) :=
  ⟨by decide, rfl⟩

/-- C4, amended: `ensure_valid_token` refreshes exactly when
`expires_at < now + 300` (strict): when `now + 300 ≤ expires_at` it
returns the input session with no request and no persistence; when
`expires_at < now + 300` it issues the refresh request and, on success,
persists and returns the refreshed session (on failure it surfaces the
error). -/
theorem C4_ensure_valid_token_spec (o : Oracles) (session : UserSession) (db : DBState) :
    (o.nowSec + 300 ≤ session.expires_at →
      ensure_valid_token o session db = (db, [], .ok session))
    ∧ (session.expires_at < o.nowSec + 300 →
      (∀ tk, o.refreshResult = .ok tk →
        ensure_valid_token o session db =
          (save_session (refreshedSession tk session) db, [.refresh],
            .ok (refreshedSession tk session)))
      ∧ (∀ e, o.refreshResult = .error e →
        ensure_valid_token o session db = (db, [.refresh], .error e))) := by
  refine ⟨fun hfar => ?_, fun hnear => ⟨fun tk htk => ?_, fun e he => ?_⟩⟩
  · simp [ensure_valid_token, not_lt.2 hfar]
  · simp [ensure_valid_token, hnear, htk]
  · simp [ensure_valid_token, hnear, he]

/-- C4, witness: both branches of the amended statement at concrete
inputs — `sessA` (expiry 1000) is untouched at `now = 0`, and is
refreshed to `tokensB`'s session at `now = 800`. -/
theorem C4_ensure_valid_token_spec_witness :
    (oraclesOk.nowSec + 300 ≤ sessA.expires_at
      ∧ ensure_valid_token oraclesOk sessA dbEmpty = (dbEmpty, [], .ok sessA))
    ∧ (sessA.expires_at < ({ oraclesOk with nowSec := 800 } : Oracles).nowSec + 300
      ∧ ensure_valid_token { oraclesOk with nowSec := 800 } sessA dbEmpty =
          (save_session (refreshedSession tokensB sessA) dbEmpty, [.refresh],
            .ok (refreshedSession tokensB sessA))) :=
  ⟨⟨by decide,
      (C4_ensure_valid_token_spec oraclesOk sessA dbEmpty).1 (by decide)⟩,
    ⟨by decide,
      (((C4_ensure_valid_token_spec { oraclesOk with nowSec := 800 } sessA dbEmpty).2
        (by decide)).1 tokensB rfl)⟩⟩

/-- C5, counterexample: the claim says a failing payload serialization
makes the enclosing mutation return that error. With an always-failing
serializer, `insert_vault_item` nevertheless returns `Ok` and enqueues
the outbox entry with a NULL payload: `add_to_sync_queue_internal`
discards the serialization error via `.ok().flatten()`. -/
theorem C5_counterexample :
    serFail itemA = none
    ∧ (insert_vault_item serFail 0 itemA dbEmpty).2 = .ok ()
    ∧ (insert_vault_item serFail 0 itemA dbEmpty).1.sync_queue =
        [⟨0, "create", "vault_items", "a", none, 0⟩] :=
  ⟨rfl, rfl, rfl⟩

/-- C5, amended: storage faults inside a mutation do propagate to the
caller (either failing statement of `insert_vault_item` surfaces its
error), but a payload-serialization failure is silently swallowed: the
create/update succeeds and its outbox entry carries a NULL payload. -/
theorem C5_fault_propagation (ser : VaultItem → Option String) (now : Nat)
    (item : VaultItem) (db : DBState)
    (hser : ser item = none) (hfresh : ∀ r ∈ db.vault_items, r.id ≠ item.id) :
    (insert_vault_item ser now item db).2 = .ok ()
    ∧ (insert_vault_item ser now item db).1.sync_queue =
        db.sync_queue ++ [⟨db.next_queue_id, "create", "vault_items", item.id, none, now⟩]
    ∧ (update_vault_item ser now item db).2 = .ok ()
    ∧ (update_vault_item ser now item db).1.sync_queue =
        db.sync_queue ++ [⟨db.next_queue_id, "update", "vault_items", item.id, none, now⟩]
    ∧ (insert_vault_item_f ser now item true false db).2 =
        .error "storage fault: insert row"
    ∧ (insert_vault_item_f ser now item false true db).2 =
        .error "storage fault: insert sync_queue" := by
  have h : db.vault_items.any (fun it => it.id = item.id) = false := by
    simp only [List.any_eq_false, decide_eq_true_eq]
    exact fun r hr => hfresh r hr
  refine ⟨?_, ?_, ?_, ?_, ?_, ?_⟩
  · simp [insert_vault_item, h]
  · simp [insert_vault_item, add_to_sync_queue_internal, h, hser]
  · simp [update_vault_item]
  · simp [update_vault_item, add_to_sync_queue_internal, hser]
  · simp [insert_vault_item_f]
  · simp [insert_vault_item_f, h]

/-- C5, witness: the amended statement at the always-failing serializer
on the empty store. -/
theorem C5_fault_propagation_witness :
    (serFail itemA = none)
    ∧ (insert_vault_item serFail 7 itemA dbEmpty).2 = .ok () :=
  ⟨rfl, (C5_fault_propagation serFail 7 itemA dbEmpty rfl
    (by intro r hr; simp [dbEmpty] at hr)).1⟩

/-!
## Claims C2 and C9 -/

/-- C2, counterexample: the claim says a storage fault anywhere inside a
public Local Store method leaves the stored state unchanged. A fault in
the sync-queue INSERT of `insert_vault_item` (its second statement)
aborts the method with an error, yet the row INSERT has already
auto-committed: the visible state has the row but no outbox entry —
exactly the partial write the claim rules out. -/
theorem C2_counterexample :
    (insert_vault_item_f serOk 0 itemA false true dbEmpty).2 =
      .error "storage fault: insert sync_queue"
    ∧ (insert_vault_item_f serOk 0 itemA false true dbEmpty).1 ≠ dbEmpty
    ∧ (insert_vault_item_f serOk 0 itemA false true dbEmpty).1.vault_items = [itemA]
    ∧ (insert_vault_item_f serOk 0 itemA false true dbEmpty).1.sync_queue = [] :=
  ⟨rfl, by decide, rfl, rfl⟩

/-- C2, amended: no public method except the two bulk upserts opens a
transaction; each SQL statement auto-commits on its own. A fault in the
*first* statement of `insert_vault_item` does leave the state unchanged,
but a fault in its second (sync-queue) statement leaves the row inserted
with no outbox entry; likewise `clear_all_data` is a plain statement
batch, so a fault at its k-th DELETE leaves the first k−1 tables wiped
and the rest intact (shown here for a fault at the `folders` DELETE:
records are gone, outbox and session survive). In every case the fault
is surfaced to the caller. -/
theorem C2_no_transactions (ser : VaultItem → Option String) (now : Nat)
    (item : VaultItem) (db : DBState)
    (hfresh : ∀ r ∈ db.vault_items, r.id ≠ item.id) :
    ((insert_vault_item_f ser now item true false db).1 = db
      ∧ (insert_vault_item_f ser now item true false db).2 =
          .error "storage fault: insert row")
    ∧ ((insert_vault_item_f ser now item false true db).1.vault_items =
          db.vault_items ++ [item]
      ∧ (insert_vault_item_f ser now item false true db).1.sync_queue = db.sync_queue
      ∧ (insert_vault_item_f ser now item false true db).2 =
          .error "storage fault: insert sync_queue")
    ∧ ((clear_all_data_f false true false false db).1.vault_items = []
      ∧ (clear_all_data_f false true false false db).1.folders = db.folders
      ∧ (clear_all_data_f false true false false db).1.sync_queue = db.sync_queue
      ∧ (clear_all_data_f false true false false db).1.session = db.session
      ∧ (clear_all_data_f false true false false db).2 =
          .error "storage fault: delete folders") := by
  have h : db.vault_items.any (fun it => it.id = item.id) = false := by
    simp only [List.any_eq_false, decide_eq_true_eq]
    exact fun r hr => hfresh r hr
  refine ⟨⟨?_, ?_⟩, ⟨?_, ?_, ?_⟩, ?_, ?_, ?_, ?_, ?_⟩ <;>
    simp [insert_vault_item_f, clear_all_data_f, h]

/-- C2, witness: the amended statement at `itemA` over the empty store. -/
theorem C2_no_transactions_witness :
    (insert_vault_item_f serOk 3 itemA false true dbEmpty).1.vault_items = [itemA] :=
  by simpa [dbEmpty] using
    (C2_no_transactions serOk 3 itemA dbEmpty
      (by intro r hr; simp [dbEmpty] at hr)).2.1.1

/-- C9: tombstone semantics. (i) A stored record with `deleted_at` set
never appears in `get_all_vault_items` and always appears in
`get_trashed_items`. (ii) After `restore_vault_item now id`, the
restored row appears in `get_all_vault_items` and every stored row with
that id has `deleted_at` cleared. (iii) After
`permanently_delete_vault_item id`, no row with that id appears in
either listing. -/
theorem C9_tombstone_visibility :
    (∀ (db : DBState) (it : VaultItem), it ∈ db.vault_items → it.deleted_at ≠ none →
      it ∉ get_all_vault_items db ∧ it ∈ get_trashed_items db)
    ∧ (∀ (db : DBState) (now : Nat) (id : String) (r : VaultItem),
        r ∈ db.vault_items → r.id = id →
        ({ r with deleted_at := none, local_updated_at := now } : VaultItem)
          ∈ get_all_vault_items (restore_vault_item now id db).1
        ∧ ∀ r' ∈ (restore_vault_item now id db).1.vault_items,
            r'.id = id → r'.deleted_at = none)
    ∧ (∀ (db : DBState) (now : Nat) (id : String) (it : VaultItem),
        (it ∈ get_all_vault_items (permanently_delete_vault_item now id db).1
          ∨ it ∈ get_trashed_items (permanently_delete_vault_item now id db).1) →
        it.id ≠ id) := by
  refine ⟨fun db it hmem hdel => ⟨fun hin => ?_, ?_⟩,
    fun db now id r hmem hid => ⟨?_, fun r' hr' hid' => ?_⟩,
    fun db now id it hin => ?_⟩
  · rw [get_all_vault_items, List.mem_insertionSort, List.mem_filter] at hin
    exact hdel (by simpa using hin.2)
  · rw [get_trashed_items, List.mem_insertionSort, List.mem_filter]
    exact ⟨hmem, by simpa using hdel⟩
  · rw [get_all_vault_items, List.mem_insertionSort, List.mem_filter]
    refine ⟨?_, by simp⟩
    simp only [restore_vault_item, add_to_sync_queue_internal, List.mem_map]
    exact ⟨r, hmem, by simp [hid]⟩
  · simp only [restore_vault_item, add_to_sync_queue_internal, List.mem_map] at hr'
    obtain ⟨s, _, rfl⟩ := hr'
    by_cases hs : s.id = id
    · simp [hs]
    · simp only [if_neg hs] at hid' ⊢
      exact absurd hid' hs
  · have hrows : it ∈ db.vault_items.filter (fun r => r.id ≠ id) := by
      rcases hin with hin | hin
      · rw [get_all_vault_items, List.mem_insertionSort, List.mem_filter] at hin
        simpa [permanently_delete_vault_item, add_to_sync_queue_internal] using hin.1
      · rw [get_trashed_items, List.mem_insertionSort, List.mem_filter] at hin
        simpa [permanently_delete_vault_item, add_to_sync_queue_internal] using hin.1
    simpa using (List.mem_filter.mp hrows).2

/-- C9, witness: the tombstone parts at a concrete store holding one
soft-deleted copy of `itemA`. -/
theorem C9_tombstone_visibility_witness :
    ({ itemA with deleted_at := some 3 } : VaultItem) ∉
      get_all_vault_items
        { dbEmpty with vault_items := [{ itemA with deleted_at := some 3 }] }
    ∧ ({ itemA with deleted_at := some 3 } : VaultItem) ∈
      get_trashed_items
        { dbEmpty with vault_items := [{ itemA with deleted_at := some 3 }] } :=
  C9_tombstone_visibility.1
    { dbEmpty with vault_items := [{ itemA with deleted_at := some 3 }] }
    { itemA with deleted_at := some 3 } (by simp) (by simp)

/-!
## Claim C3: the outbox under call sequences -/

/-- The strict ordering that successive outbox appends create: an
earlier entry has an older-or-equal wall-clock stamp and a strictly
smaller sequence id. -/
def queueBelow (a b : SyncQueueItem) : Prop :=
  a.created_at ≤ b.created_at ∧ a.id < b.id

/-- Well-formedness of the outbox at wall-clock time `t`: every entry's
sequence id is below the AUTOINCREMENT counter, every stamp is at most
`t`, and the stored order realizes `queueBelow`. -/
structure QueueWF (t : Nat) (db : DBState) : Prop where
  bound : ∀ e ∈ db.sync_queue, e.id < db.next_queue_id
  time : ∀ e ∈ db.sync_queue, e.created_at ≤ t
  mono : db.sync_queue.Pairwise queueBelow

theorem QueueWF.mono_time {t t' : Nat} {db : DBState} (h : QueueWF t db) (ht : t ≤ t') :
    QueueWF t' db :=
  ⟨h.bound, fun e he => le_trans (h.time e he) ht, h.mono⟩

/-- A successful mutating call appends exactly one outbox entry, stamped
with the call's time and numbered by the counter, and bumps the counter. -/
theorem applyCall_ok_queue (ser : VaultItem → Option String) (t : Nat) (c : MutCall)
    (db : DBState) (h : (applyCall ser t c db).2 = .ok ()) :
    ∃ e : SyncQueueItem, e.id = db.next_queue_id ∧ e.created_at = t ∧
      (applyCall ser t c db).1.sync_queue = db.sync_queue ++ [e] ∧
      (applyCall ser t c db).1.next_queue_id = db.next_queue_id + 1 := by
  cases c with
  | create it =>
      by_cases hd : db.vault_items.any (fun r => r.id = it.id)
      · simp [applyCall, insert_vault_item, hd] at h
      · refine ⟨⟨db.next_queue_id, "create", "vault_items", it.id, (some it).bind ser, t⟩,
          rfl, rfl, ?_, ?_⟩ <;>
          simp [applyCall, insert_vault_item, hd, add_to_sync_queue_internal]
  | update it =>
      refine ⟨⟨db.next_queue_id, "update", "vault_items", it.id, (some it).bind ser, t⟩,
        rfl, rfl, ?_, ?_⟩ <;>
        simp [applyCall, update_vault_item, add_to_sync_queue_internal]
  | softDelete id =>
      refine ⟨⟨db.next_queue_id, "update", "vault_items", id, none, t⟩,
        rfl, rfl, ?_, ?_⟩ <;>
        simp [applyCall, soft_delete_vault_item, add_to_sync_queue_internal]
  | restore id =>
      refine ⟨⟨db.next_queue_id, "update", "vault_items", id, none, t⟩,
        rfl, rfl, ?_, ?_⟩ <;>
        simp [applyCall, restore_vault_item, add_to_sync_queue_internal]
  | purge id =>
      refine ⟨⟨db.next_queue_id, "delete", "vault_items", id, none, t⟩,
        rfl, rfl, ?_, ?_⟩ <;>
        simp [applyCall, permanently_delete_vault_item, add_to_sync_queue_internal]

/-- Running a successful, time-monotone call sequence grows the outbox
by exactly one entry per call and preserves well-formedness. -/
theorem applyCalls_wf (ser : VaultItem → Option String) :
    ∀ (calls : List (Nat × MutCall)) (t0 : Nat) (db : DBState),
    QueueWF t0 db → List.Chain' (· ≤ ·) (t0 :: calls.map Prod.fst) →
    callsOk ser calls db = true →
    (applyCalls ser calls db).sync_queue.length = db.sync_queue.length + calls.length
    ∧ ∃ t1, QueueWF t1 (applyCalls ser calls db)
  | [], t0, db, hwf, _, _ => by
      exact ⟨by simp [applyCalls], t0, hwf⟩
  | (t, c) :: rest, t0, db, hwf, hchain, hok => by
      have ht0t : t0 ≤ t := (List.chain'_cons.mp (by simpa using hchain)).1
      have hchain' : List.Chain' (· ≤ ·) (t :: rest.map Prod.fst) :=
        (List.chain'_cons.mp (by simpa using hchain)).2
      rw [callsOk] at hok
      rcases hres : applyCall ser t c db with ⟨db1, r⟩
      rw [hres] at hok
      cases r with
      | error e => simp at hok
      | ok u =>
          cases u
          obtain ⟨e, hid, hct, hq, hn⟩ := applyCall_ok_queue ser t c db (by rw [hres])
          rw [hres] at hq hn
          have hwf1 : QueueWF t db1 := by
            have hwft : QueueWF t db := hwf.mono_time ht0t
            refine ⟨?_, ?_, ?_⟩
            · intro x hx
              rw [hq] at hx
              rw [hn]
              rcases List.mem_append.mp hx with hx | hx
              · exact Nat.lt_succ_of_lt (hwft.bound x hx)
              · simp only [List.mem_singleton] at hx
                subst hx
                rw [hid]
                exact Nat.lt_succ_self _
            · intro x hx
              rw [hq] at hx
              rcases List.mem_append.mp hx with hx | hx
              · exact hwft.time x hx
              · simp only [List.mem_singleton] at hx
                subst hx
                exact le_of_eq hct
            · rw [hq]
              rw [List.pairwise_append]
              refine ⟨hwft.mono, List.pairwise_singleton _ _, ?_⟩
              intro a ha b hb
              simp only [List.mem_singleton] at hb
              subst hb
              exact ⟨hct ▸ hwft.time a ha, hid ▸ hwft.bound a ha⟩
          have ih := applyCalls_wf ser rest t db1 hwf1 hchain' hok
          have hstep : applyCalls ser ((t, c) :: rest) db = applyCalls ser rest db1 := by
            simp [applyCalls, hres]
          rw [hstep]
          refine ⟨?_, ih.2⟩
          rw [ih.1, hq]
          simp [Nat.add_comm, Nat.add_assoc, Nat.add_left_comm]

/-- C3: starting from an empty outbox, any successful sequence of
mutating record calls with nondecreasing wall-clock stamps leaves
exactly one outbox entry per call (no coalescing), and
`get_pending_sync_items` returns the queue exactly in the order the
calls appended it, with strictly ascending sequence ids (FIFO). -/
theorem C3_outbox_fifo (ser : VaultItem → Option String)
    (calls : List (Nat × MutCall)) (db : DBState)
    (hq : db.sync_queue = [])
    (hmono : List.Chain' (· ≤ ·) (calls.map Prod.fst))
    (hok : callsOk ser calls db = true) :
    (applyCalls ser calls db).sync_queue.length = calls.length
    ∧ get_pending_sync_items (applyCalls ser calls db) =
        (applyCalls ser calls db).sync_queue
    ∧ (applyCalls ser calls db).sync_queue.Pairwise (fun a b => a.id < b.id) := by
  have hwf0 : QueueWF 0 db := by
    refine ⟨?_, ?_, ?_⟩ <;> simp [hq]
  have hchain : List.Chain' (· ≤ ·) ((0 : Nat) :: calls.map Prod.fst) := by
    rcases hm : calls.map Prod.fst with _ | ⟨t, ts⟩
    · simp
    · rw [List.chain'_cons]
      exact ⟨Nat.zero_le t, hm ▸ hmono⟩
  obtain ⟨hlen, t1, hwf⟩ := applyCalls_wf ser calls 0 db hwf0 hchain hok
  refine ⟨by rw [hlen, hq]; simp, ?_, ?_⟩
  · have hsorted : (applyCalls ser calls db).sync_queue.Sorted queueLe := by
      refine hwf.mono.imp ?_
      intro a b hab
      rcases Nat.lt_or_ge a.created_at b.created_at with h | h
      · exact Or.inl h
      · exact Or.inr ⟨le_antisymm hab.1 h, le_of_lt hab.2⟩
    exact hsorted.insertionSort_eq
  · exact hwf.mono.imp (fun h => h.2)

/-- C3, witness: a create followed by a soft delete at increasing times
on the empty store leaves an outbox of length two, returned in order. -/
theorem C3_outbox_fifo_witness :
    (applyCalls serOk [(1, .create itemA), (2, .softDelete "a")] dbEmpty).sync_queue.length = 2
    ∧ get_pending_sync_items
        (applyCalls serOk [(1, .create itemA), (2, .softDelete "a")] dbEmpty) =
      (applyCalls serOk [(1, .create itemA), (2, .softDelete "a")] dbEmpty).sync_queue :=
  ⟨(C3_outbox_fifo serOk [(1, .create itemA), (2, .softDelete "a")] dbEmpty rfl
      (by simp) (by decide)).1,
    (C3_outbox_fifo serOk [(1, .create itemA), (2, .softDelete "a")] dbEmpty rfl
      (by simp) (by decide)).2.1⟩

/-!
## Claims C6 and C10: the push phase -/

/-- Two stores holding rows with the same ids in the same order — the
push loop only rewrites row fields (`synced_at`, `server_updated_at`),
never row identity or existence. -/
def SameIds (db db0 : DBState) : Prop :=
  db.vault_items.map (fun it => it.id) = db0.vault_items.map (fun it => it.id)
  ∧ db.folders.map (fun f => f.id) = db0.folders.map (fun f => f.id)

theorem SameIds.refl (db : DBState) : SameIds db db := ⟨rfl, rfl⟩

theorem SameIds.trans {a b c : DBState} (h1 : SameIds a b) (h2 : SameIds b c) :
    SameIds a c := ⟨h1.1.trans h2.1, h1.2.trans h2.2⟩

theorem any_item_id_eq (l : List VaultItem) (rid : String) :
    l.any (fun it => it.id = rid) = (l.map (fun it => it.id)).any (fun i => i = rid) := by
  induction l with
  | nil => rfl
  | cons x xs ih => simp [List.any_cons, ih]

theorem any_folder_id_eq (l : List Folder) (rid : String) :
    l.any (fun f => f.id = rid) = (l.map (fun f => f.id)).any (fun i => i = rid) := by
  induction l with
  | nil => rfl
  | cons x xs ih => simp [List.any_cons, ih]

/-- The push verdict on an entry depends on the store only through
which row ids exist. -/
theorem entrySucceeds_congr (o : Oracles) {db db0 : DBState} (h : SameIds db db0)
    (e : SyncQueueItem) : entrySucceeds o db e = entrySucceeds o db0 e := by
  unfold entrySucceeds
  rw [any_item_id_eq, any_folder_id_eq, h.1, h.2, ← any_item_id_eq, ← any_folder_id_eq]

theorem mark_item_synced_queue (now : Nat) (tbl rid : String) (db : DBState) :
    (mark_item_synced now tbl rid db).sync_queue = db.sync_queue := by
  unfold mark_item_synced
  split_ifs <;> rfl

theorem mark_item_synced_sameIds (now : Nat) (tbl rid : String) (db : DBState) :
    SameIds (mark_item_synced now tbl rid db) db := by
  unfold mark_item_synced
  split_ifs with h1 h2
  · refine ⟨?_, rfl⟩
    simp only [List.map_map]
    apply List.map_congr_left
    intro a _
    by_cases h : a.id = rid <;> simp [h, Function.comp]
  · refine ⟨rfl, ?_⟩
    simp only [List.map_map]
    apply List.map_congr_left
    intro a _
    by_cases h : a.id = rid <;> simp [h, Function.comp]
  · exact SameIds.refl db

theorem remove_from_sync_queue_sameIds (qid : Nat) (db : DBState) :
    SameIds (remove_from_sync_queue qid db) db := SameIds.refl _

/-- Per-entry behaviour of the push loop body, expressed through
`entrySucceeds`: on success the entry's queue row is deleted and the
record marked synced; on failure nothing changes; an `upsertItem`
request is only ever issued for an id that has a stored row. -/
theorem push_entry_spec (o : Oracles) (e : SyncQueueItem) (db : DBState) :
    (push_entry o e db).1 =
      (if entrySucceeds o db e then
        mark_item_synced o.markNow e.table_name e.record_id (remove_from_sync_queue e.id db)
      else db)
    ∧ (push_entry o e db).2.2 =
      (if entrySucceeds o db e then [(e.table_name, e.record_id)] else [])
    ∧ (∀ id, NetEvent.upsertItem id ∈ (push_entry o e db).2.1 →
        db.vault_items.any (fun it => it.id = id) = true) := by
  by_cases hcu : e.operation = "create" ∨ e.operation = "update"
  · by_cases htbl : e.table_name = "vault_items"
    · rcases hfind : get_vault_item e.record_id db with _ | it
      · have hany : db.vault_items.any (fun it => it.id = e.record_id) = false := by
          rw [List.any_eq_false]
          intro x hx
          have := List.find?_eq_none.mp hfind x hx
          simpa using this
        simp [push_entry, push_upsert, entrySucceeds, hcu, htbl, hfind, hany]
      · have hpid : it.id = e.record_id := by
          have := List.find?_some hfind
          simpa using this
        have hany : db.vault_items.any (fun it => it.id = e.record_id) = true := by
          rw [List.any_eq_true]
          exact ⟨it, List.mem_of_find?_eq_some hfind, by simp [hpid]⟩
        by_cases hok : o.upsertItemOk e.record_id <;>
          simp [push_entry, push_upsert, entrySucceeds, hcu, htbl, hfind, hany,
            hpid, hok] <;>
          exact ⟨it, List.mem_of_find?_eq_some hfind, hpid⟩
    · by_cases htbf : e.table_name = "folders"
      · rcases hfind : db.folders.find? (fun f => f.id = e.record_id) with _ | f
        · have hany : db.folders.any (fun f => f.id = e.record_id) = false := by
            rw [List.any_eq_false]
            intro x hx
            have := List.find?_eq_none.mp hfind x hx
            simpa using this
          simp [push_entry, push_upsert, entrySucceeds, hcu, htbl, htbf, hfind, hany]
        · have hpid : f.id = e.record_id := by
            have := List.find?_some hfind
            simpa using this
          have hany : db.folders.any (fun g => g.id = e.record_id) = true := by
            rw [List.any_eq_true]
            exact ⟨f, List.mem_of_find?_eq_some hfind, by simp [hpid]⟩
          by_cases hok : o.upsertFolderOk e.record_id <;>
            simp [push_entry, push_upsert, entrySucceeds, hcu, htbl, htbf, hfind,
              hany, hpid, hok]
      · simp [push_entry, push_upsert, entrySucceeds, hcu, htbl, htbf]
  · by_cases hdel : e.operation = "delete"
    · by_cases hok : o.deleteOk e.table_name e.record_id <;>
        simp [push_entry, push_delete, entrySucceeds, hcu, hdel, hok]
    · simp [push_entry, entrySucceeds, hcu, hdel]

/-- Every stored row with the given record id carries the push phase's
`synced_at`/`server_updated_at` stamp. -/
def Marked (o : Oracles) (rid : String) (db : DBState) : Prop :=
  ∀ r ∈ db.vault_items, r.id = rid →
    r.synced_at = some o.markNow ∧ r.server_updated_at = some o.markNow

theorem mark_preserves_Marked (o : Oracles) (rid : String) (tbl rid' : String)
    (db : DBState) (h : Marked o rid db) :
    Marked o rid (mark_item_synced o.markNow tbl rid' db) := by
  unfold mark_item_synced
  split_ifs with h1 h2
  · intro r hr hid
    simp only [List.mem_map] at hr
    obtain ⟨s, hs, rfl⟩ := hr
    by_cases hsid : s.id = rid'
    · simp [hsid]
    · simp only [if_neg hsid] at hid ⊢
      exact h s hs hid
  · exact h
  · exact h

theorem mark_establishes_Marked (o : Oracles) (rid : String) (db : DBState) :
    Marked o rid (mark_item_synced o.markNow "vault_items" rid db) := by
  unfold mark_item_synced
  rw [if_pos rfl]
  intro r hr hid
  simp only [List.mem_map] at hr
  obtain ⟨s, hs, rfl⟩ := hr
  by_cases hsid : s.id = rid
  · simp [hsid]
  · simp only [if_neg hsid] at hid
    exact absurd hid hsid

theorem push_entry_preserves_Marked (o : Oracles) (rid : String) (e : SyncQueueItem)
    (db : DBState) (h : Marked o rid db) : Marked o rid (push_entry o e db).1 := by
  rw [(push_entry_spec o e db).1]
  split_ifs
  · exact mark_preserves_Marked o rid _ _ _ h
  · exact h

/-- The queue rows that the push loop leaves in place: those whose id
does not belong to any entry the loop treats as successfully pushed. -/
def survivesPush (o : Oracles) (db0 : DBState) (entries : List SyncQueueItem)
    (q : SyncQueueItem) : Prop :=
  ∀ e ∈ entries, entrySucceeds o db0 e = true → q.id ≠ e.id

instance (o : Oracles) (db0 : DBState) (entries : List SyncQueueItem)
    (q : SyncQueueItem) : Decidable (survivesPush o db0 entries q) := by
  unfold survivesPush
  infer_instance

/-- Master description of the push loop run on the pending snapshot
`entries` over a store sharing `db0`'s row ids: row ids are preserved;
the queue keeps exactly the rows not claimed by a successful entry (in
order); `mark_item_synced` is invoked exactly for the successful
entries, in order; the batch result is `Ok` regardless of per-entry
failures; an item-upsert request is only issued for ids with a stored
row; and `Marked` facts are established by successful `vault_items`
entries and preserved throughout. -/
theorem push_loop_spec (o : Oracles) (db0 : DBState) :
    ∀ (entries : List SyncQueueItem) (db : DBState), SameIds db db0 →
    SameIds (push_changes_loop o entries db).1 db0
    ∧ (push_changes_loop o entries db).1.sync_queue =
        db.sync_queue.filter (fun q => decide (survivesPush o db0 entries q))
    ∧ (push_changes_loop o entries db).2.2.1 =
        (entries.filter (fun e => entrySucceeds o db0 e)).map
          (fun e => (e.table_name, e.record_id))
    ∧ (push_changes_loop o entries db).2.2.2 = Except.ok ()
    ∧ (∀ id, NetEvent.upsertItem id ∈ (push_changes_loop o entries db).2.1 →
        db0.vault_items.any (fun it => it.id = id) = true)
    ∧ (∀ rid, Marked o rid db → Marked o rid (push_changes_loop o entries db).1)
    ∧ (∀ e ∈ entries, entrySucceeds o db0 e = true → e.table_name = "vault_items" →
        Marked o e.record_id (push_changes_loop o entries db).1)
  | [], db, h => by
      refine ⟨h, ?_, rfl, rfl, by simp [push_changes_loop], fun rid hm => hm, by simp⟩
      simp [push_changes_loop, survivesPush]
  | e :: rest, db, h => by
      have hspec := push_entry_spec o e db
      have hcong : entrySucceeds o db e = entrySucceeds o db0 e :=
        entrySucceeds_congr o h e
      rcases hpe : push_entry o e db with ⟨db1, ev1, mk1⟩
      rw [hpe] at hspec
      obtain ⟨hdb1, hmk1, hev1⟩ := hspec
      dsimp only at hdb1 hmk1 hev1
      have hsame1 : SameIds db1 db0 := by
        rw [hdb1]
        split_ifs
        · exact ((mark_item_synced_sameIds _ _ _ _).trans
            (remove_from_sync_queue_sameIds _ _)).trans h
        · exact h
      obtain ⟨ih1, ih2, ih3, ih4, ih5, ih6, ih7⟩ := push_loop_spec o db0 rest db1 hsame1
      rcases hloop : push_changes_loop o rest db1 with ⟨db2, ev2, mk2, rr⟩
      rw [hloop] at ih1 ih2 ih3 ih4 ih5 ih6 ih7
      dsimp only at ih1 ih2 ih3 ih4 ih5 ih6 ih7
      have hgoal : push_changes_loop o (e :: rest) db =
          (db2, ev1 ++ ev2, mk1 ++ mk2, rr) := by
        simp [push_changes_loop, hpe, hloop]
      rw [hgoal]
      dsimp only
      by_cases hs : entrySucceeds o db0 e = true
      · rw [hcong, if_pos hs] at hdb1
        rw [hcong, if_pos hs] at hmk1
        have hq1 : db1.sync_queue =
            db.sync_queue.filter (fun q => decide (q.id ≠ e.id)) := by
          rw [hdb1, mark_item_synced_queue]
          rfl
        refine ⟨ih1, ?_, ?_, ih4, ?_, ?_, ?_⟩
        · rw [ih2, hq1, List.filter_filter]
          apply List.filter_congr
          intro a _
          have hiff : survivesPush o db0 (e :: rest) a ↔
              a.id ≠ e.id ∧ survivesPush o db0 rest a := by
            simp [survivesPush, List.forall_mem_cons, hs]
          by_cases h1 : a.id = e.id <;> by_cases h2 : survivesPush o db0 rest a <;>
            simp [hiff, h1, h2]
        · rw [hmk1, ih3, List.filter_cons_of_pos (by simp [hs])]
          simp
        · intro id hid
          rcases List.mem_append.mp hid with hid | hid
          · have := hev1 id hid
            rwa [any_item_id_eq, h.1, ← any_item_id_eq] at this
          · exact ih5 id hid
        · intro rid hm
          refine ih6 rid ?_
          rw [hdb1]
          exact mark_preserves_Marked o rid _ _ _ hm
        · intro el hel hsel htbll
          rcases List.mem_cons.mp hel with rfl | hel
          · refine ih6 el.record_id ?_
            rw [hdb1, htbll]
            exact mark_establishes_Marked o el.record_id _
          · exact ih7 el hel hsel htbll
      · have hsf : entrySucceeds o db0 e = false := eq_false_of_ne_true hs
        rw [hcong, hsf] at hdb1 hmk1
        rw [if_neg (by simp)] at hdb1
        rw [if_neg (by simp)] at hmk1
        refine ⟨ih1, ?_, ?_, ih4, ?_, ?_, ?_⟩
        · rw [ih2, hdb1]
          apply List.filter_congr
          intro a _
          have hiff : survivesPush o db0 (e :: rest) a ↔ survivesPush o db0 rest a := by
            simp [survivesPush, List.forall_mem_cons, hsf]
          rw [decide_eq_decide.mpr hiff]
        · rw [hmk1, ih3, List.filter_cons_of_neg (by simp [hsf])]
          simp
        · intro id hid
          rcases List.mem_append.mp hid with hid | hid
          · have := hev1 id hid
            rwa [any_item_id_eq, h.1, ← any_item_id_eq] at this
          · exact ih5 id hid
        · intro rid hm
          refine ih6 rid ?_
          rw [hdb1]
          exact hm
        · intro el hel hsel htbll
          rcases List.mem_cons.mp hel with rfl | hel
          · exact absurd hsel (by simp [hsf])
          · exact ih7 el hel hsel htbll

/-- C6: push-phase semantics over the pending snapshot. The batch
always returns `Ok` — a failing remote call never aborts it; every
entry the loop treats as successfully pushed is dequeued and
`mark_item_synced` is invoked for it in order, stamping the item row's
`synced_at` and `server_updated_at`; every queue row not claimed by a
successful entry (in particular any entry whose remote call failed)
remains queued for the next cycle. -/
theorem C6_push_batch_semantics (o : Oracles) (db : DBState) :
    (push_changes o db).2.2.2 = Except.ok ()
    ∧ (push_changes o db).1.sync_queue =
        db.sync_queue.filter
          (fun q => decide (survivesPush o db (get_pending_sync_items db) q))
    ∧ (push_changes o db).2.2.1 =
        ((get_pending_sync_items db).filter (fun e => entrySucceeds o db e)).map
          (fun e => (e.table_name, e.record_id))
    ∧ (∀ q ∈ db.sync_queue, survivesPush o db (get_pending_sync_items db) q →
        q ∈ (push_changes o db).1.sync_queue)
    ∧ (∀ e ∈ get_pending_sync_items db, entrySucceeds o db e = true →
        e.table_name = "vault_items" →
        ∀ r ∈ (push_changes o db).1.vault_items, r.id = e.record_id →
          r.synced_at = some o.markNow ∧ r.server_updated_at = some o.markNow) := by
  obtain ⟨ih1, ih2, ih3, ih4, ih5, ih6, ih7⟩ :=
    push_loop_spec o db (get_pending_sync_items db) db (SameIds.refl db)
  refine ⟨ih4, ih2, ih3, ?_, ?_⟩
  · intro q hq hsur
    rw [push_changes, ih2]
    exact List.mem_filter.mpr ⟨hq, by simpa using hsur⟩
  · intro e he hse htbl r hr hrid
    exact ih7 e he hse htbl r hr hrid

/-- C6, witness: one successfully pushed `create` entry over a store
holding its record — the batch returns `Ok`, the queue empties, and the
record is stamped. -/
theorem C6_push_batch_semantics_witness :
    (push_changes oraclesOk
        { dbEmpty with
          vault_items := [itemA]
          sync_queue := [⟨0, "create", "vault_items", "a", some "p", 5⟩]
          next_queue_id := 1 }).2.2.2 = Except.ok ()
    ∧ ∀ r ∈ (push_changes oraclesOk
        { dbEmpty with
          vault_items := [itemA]
          sync_queue := [⟨0, "create", "vault_items", "a", some "p", 5⟩]
          next_queue_id := 1 }).1.vault_items, r.id = "a" →
        r.synced_at = some 20 ∧ r.server_updated_at = some 20 := by
  refine ⟨(C6_push_batch_semantics oraclesOk _).1, ?_⟩
  intro r hr hrid
  exact (C6_push_batch_semantics oraclesOk
      { dbEmpty with
        vault_items := [itemA]
        sync_queue := [⟨0, "create", "vault_items", "a", some "p", 5⟩]
        next_queue_id := 1 }).2.2.2.2
    ⟨0, "create", "vault_items", "a", some "p", 5⟩ (by decide) (by decide) rfl r hr hrid

/-- C10: a pending create/update entry whose record id has no stored
row is treated by the push phase as successfully pushed: the loop
deems it a success, its queue row is removed, `mark_item_synced` is
still invoked for the missing id, and no item-upsert request for that
id is ever issued — the locally-missing record's mutation is silently
dropped. -/
theorem C10_missing_record_silently_dropped (o : Oracles) (db : DBState)
    (e : SyncQueueItem) (he : e ∈ get_pending_sync_items db)
    (hop : e.operation = "create" ∨ e.operation = "update")
    (htbl : e.table_name = "vault_items")
    (hmissing : ∀ r ∈ db.vault_items, r.id ≠ e.record_id) :
    entrySucceeds o db e = true
    ∧ (∀ q ∈ (push_changes o db).1.sync_queue, q.id ≠ e.id)
    ∧ (e.table_name, e.record_id) ∈ (push_changes o db).2.2.1
    ∧ (∀ id, NetEvent.upsertItem id ∈ (push_changes o db).2.1 → id ≠ e.record_id) := by
  have hany : db.vault_items.any (fun it => it.id = e.record_id) = false := by
    rw [List.any_eq_false]
    intro x hx
    simpa using hmissing x hx
  have hsucc : entrySucceeds o db e = true := by
    unfold entrySucceeds
    rw [if_pos hop, if_pos htbl, hany]
    rfl
  obtain ⟨ih1, ih2, ih3, ih4, ih5, ih6, ih7⟩ :=
    push_loop_spec o db (get_pending_sync_items db) db (SameIds.refl db)
  refine ⟨hsucc, ?_, ?_, ?_⟩
  · intro q hq
    rw [push_changes, ih2] at hq
    have := List.mem_filter.mp hq
    have hsur : survivesPush o db (get_pending_sync_items db) q := by
      simpa using this.2
    exact hsur e he hsucc
  · rw [push_changes, ih3]
    exact List.mem_map.mpr ⟨e, List.mem_filter.mpr ⟨he, by simp [hsucc]⟩, rfl⟩
  · intro id hid
    have := ih5 id hid
    intro hcontr
    rw [hcontr, hany] at this
    exact Bool.false_ne_true this

/-- C10, witness: a `create` entry for id "ghost" with no stored row on
an otherwise empty store — deemed success, dequeued, marked, no request. -/
theorem C10_missing_record_silently_dropped_witness :
    entrySucceeds oraclesOk
      { dbEmpty with
        sync_queue := [⟨0, "create", "vault_items", "ghost", none, 5⟩]
        next_queue_id := 1 }
      ⟨0, "create", "vault_items", "ghost", none, 5⟩ = true
    ∧ ("vault_items", "ghost") ∈
      (push_changes oraclesOk
        { dbEmpty with
          sync_queue := [⟨0, "create", "vault_items", "ghost", none, 5⟩]
          next_queue_id := 1 }).2.2.1 := by
  have h := C10_missing_record_silently_dropped oraclesOk
    { dbEmpty with
      sync_queue := [⟨0, "create", "vault_items", "ghost", none, 5⟩]
      next_queue_id := 1 }
    ⟨0, "create", "vault_items", "ghost", none, 5⟩
    (by decide) (Or.inl rfl) rfl (by intro r hr; simp [dbEmpty] at hr)
  exact ⟨h.1, h.2.2.1⟩

/-!
## Claims C7 and C8: the sync cycle and the single-flight guard -/

theorem push_entry_session (o : Oracles) (e : SyncQueueItem) (db : DBState) :
    (push_entry o e db).1.session = db.session := by
  rw [(push_entry_spec o e db).1]
  split_ifs
  · unfold mark_item_synced remove_from_sync_queue
    split_ifs <;> rfl
  · rfl

theorem push_loop_session (o : Oracles) :
    ∀ (entries : List SyncQueueItem) (db : DBState),
    (push_changes_loop o entries db).1.session = db.session
  | [], _ => rfl
  | e :: rest, db => by
      rcases hpe : push_entry o e db with ⟨db1, ev1, mk1⟩
      have h1 : db1.session = db.session := by
        have := push_entry_session o e db
        rwa [hpe] at this
      rcases hloop : push_changes_loop o rest db1 with ⟨db2, ev2, mk2, rr⟩
      have h2 : db2.session = db1.session := by
        have := push_loop_session o rest db1
        rwa [hloop] at this
      simp [push_changes_loop, hpe, hloop]
      rw [h2, h1]

theorem push_changes_frame (o : Oracles) (db : DBState) :
    (push_changes o db).1.session = db.session
    ∧ ∀ q ∈ (push_changes o db).1.sync_queue, q ∈ db.sync_queue := by
  refine ⟨push_loop_session o _ db, ?_⟩
  intro q hq
  rw [push_changes, (push_loop_spec o db (get_pending_sync_items db) db
    (SameIds.refl db)).2.1] at hq
  exact (List.mem_filter.mp hq).1

theorem pull_changes_frame (o : Oracles) (db : DBState) :
    (pull_changes o db).1.session = db.session
    ∧ (pull_changes o db).1.sync_queue = db.sync_queue := by
  unfold pull_changes pull_folders pull_vault_items
  rcases hf : o.pullFoldersResult with fs | e <;>
    rcases hi : o.pullItemsResult with its | e2 <;>
    simp [hf, hi, bulk_upsert_folders, bulk_upsert_vault_items]

theorem ensure_valid_token_frame (o : Oracles) (s : UserSession) (db : DBState)
    (hs : db.session = some s) :
    (ensure_valid_token o s db).1.sync_queue = db.sync_queue
    ∧ (ensure_valid_token o s db).1.session.map (fun x => x.last_sync_at) =
        db.session.map (fun x => x.last_sync_at)
    ∧ (ensure_valid_token o s db).1.session.isSome = true := by
  unfold ensure_valid_token
  split_ifs
  · rcases hr : o.refreshResult with tk | e <;>
      simp [hr, save_session, refreshedSession, hs]
  · simp [hs]

/-- Frame facts about one inner sync cycle: the persisted
`last_sync_at` is never modified by `perform_sync` itself; the queue
only shrinks; a successful cycle implies a session row exists before
and after; and once the session check and token validation passed, the
final queue is exactly the push phase's queue, whatever the pull did. -/
theorem perform_sync_spec (o : Oracles) (db : DBState) :
    (perform_sync o db).1.session.map (fun s => s.last_sync_at) =
        db.session.map (fun s => s.last_sync_at)
    ∧ (∀ q ∈ (perform_sync o db).1.sync_queue, q ∈ db.sync_queue)
    ∧ ((perform_sync o db).2.2 = .ok () →
        (perform_sync o db).1.session.isSome = true ∧ db.session.isSome = true)
    ∧ (∀ s db1 ev s1, get_session db = some s →
        ensure_valid_token o s db = (db1, ev, .ok s1) →
        (perform_sync o db).1.sync_queue = (push_changes o db1).1.sync_queue) := by
  rcases hsess : db.session with _ | s
  · have hgs : get_session db = none := hsess
    have hperf : perform_sync o db = (db, [], .error "Not logged in") := by
      simp [perform_sync, hgs]
    refine ⟨by rw [hperf, hsess], by rw [hperf]; exact fun q hq => hq,
      by rw [hperf]; intro hcontr; exact absurd hcontr (by simp), ?_⟩
    intro s db1 ev s1 hgs2 _
    rw [hgs] at hgs2
    exact absurd hgs2 (by simp)
  · have hgs : get_session db = some s := hsess
    obtain ⟨hq1, hmap1, hsome1⟩ := ensure_valid_token_frame o s db hsess
    rw [hsess] at hmap1
    rcases hens : ensure_valid_token o s db with ⟨db1, ev1, r1⟩
    rw [hens] at hq1 hmap1 hsome1
    dsimp only at hq1 hmap1 hsome1
    cases r1 with
    | error e =>
        have hperf : perform_sync o db = (db1, ev1, .error e) := by
          simp [perform_sync, hgs, hens]
        rw [hperf]
        dsimp only
        refine ⟨hmap1, fun q hq => hq1 ▸ hq,
          fun hcontr => absurd hcontr (by simp), ?_⟩
        intro sx db1x evx s1x hgsx hensx
        rw [hgs] at hgsx
        injection hgsx with hgsx
        subst hgsx
        rw [hens] at hensx
        injection hensx with _ h2
        injection h2 with _ h3
        exact absurd h3 (by simp)
    | ok s1 =>
        have hpframe := push_changes_frame o db1
        rcases hpush : push_changes o db1 with ⟨db2, ev2, rest2⟩
        rw [hpush] at hpframe
        dsimp only at hpframe
        have hpullframe := pull_changes_frame o db2
        rcases hpull : pull_changes o db2 with ⟨db3, ev3, r3⟩
        rw [hpull] at hpullframe
        dsimp only at hpullframe
        have hperf : perform_sync o db = (db3, ev1 ++ ev2 ++ ev3, r3) := by
          simp [perform_sync, hgs, hens, hpush, hpull]
        rw [hperf]
        dsimp only
        refine ⟨?_, ?_, ?_, ?_⟩
        · rw [hpullframe.1, hpframe.1]
          exact hmap1
        · intro q hq
          rw [hpullframe.2] at hq
          exact hq1 ▸ hpframe.2 q hq
        · intro _
          refine ⟨?_, by simp⟩
          rw [hpullframe.1, hpframe.1]
          exact hsome1
        · intro sx db1x evx s1x hgsx hensx
          rw [hgs] at hgsx
          injection hgsx with hgsx
          subst hgsx
          rw [hens] at hensx
          injection hensx with hdb1 h2
          subst hdb1
          rw [hpullframe.2, hpush]

/-- Engine fixture: idle status over a store holding `sessA`. -/
def engIdle : EngineState :=
  { db := { dbEmpty with session := some sessA }
    status := { is_syncing := false, last_sync_at := none
                pending_changes := 0, is_online := true } }

/-- Engine fixture: a cycle in flight. -/
def engBusy : EngineState :=
  { db := dbEmpty
    status := { is_syncing := true, last_sync_at := none
                pending_changes := 0, is_online := true } }

/-- C7, counterexample: the claim says a failing cycle leaves
`last_sync_at` unchanged also in the reported status, listing "the
final store update failing" among the failure cases. When everything
succeeds except the final `update_last_sync` (a storage fault), `sync`
returns the error, the *persisted* `last_sync_at` is unchanged (`none`),
but the in-memory status was already stamped with the completion time
before the persistence attempt: the reported `last_sync_at` is
`some 22`, not the unchanged `none`. -/
theorem C7_counterexample :
    (sync { oraclesOk with lastSyncFault := true } engIdle).2.2 =
      .error "storage fault: update_last_sync"
    ∧ engIdle.status.last_sync_at = none
    ∧ (sync { oraclesOk with lastSyncFault := true } engIdle).1.status.last_sync_at =
        some 22
    ∧ (sync { oraclesOk with lastSyncFault := true } engIdle).1.db.session.map
        (fun s => s.last_sync_at) = some none :=
  ⟨rfl, rfl, rfl, rfl⟩

/-- C7, amended: for a cycle entered from an idle engine — (i) the
reported status always ends with `is_syncing = false`; (ii) on any
failure the *persisted* `last_sync_at` is unchanged; (iii) on failure
the *reported* `last_sync_at` is unchanged, except when the failure is
the final `update_last_sync` persistence itself (i.e. `perform_sync`
succeeded), in which case it already shows the completion time;
(iv) on success both show the completion time; (v) queue entries are
never re-added; (vi) once the session check and token refresh passed,
the final queue equals the push phase's queue — entries dequeued by
successful pushes stay dequeued even when the pull fails. -/
theorem C7_sync_cycle_frame (o : Oracles) (eng : EngineState)
    (h : eng.status.is_syncing = false) :
    (sync o eng).1.status.is_syncing = false
    ∧ (∀ e, (sync o eng).2.2 = .error e →
        (sync o eng).1.db.session.map (fun s => s.last_sync_at) =
          eng.db.session.map (fun s => s.last_sync_at))
    ∧ (∀ e, (sync o eng).2.2 = .error e →
        (sync o eng).1.status.last_sync_at =
          (if (perform_sync o eng.db).2.2.toBool then some o.tEnd
           else eng.status.last_sync_at))
    ∧ (∀ st, (sync o eng).2.2 = .ok st →
        (sync o eng).1.status.last_sync_at = some o.tEnd
        ∧ (sync o eng).1.db.session.map (fun s => s.last_sync_at) =
            eng.db.session.map (fun _ => some o.tEnd))
    ∧ (∀ q ∈ (sync o eng).1.db.sync_queue, q ∈ eng.db.sync_queue)
    ∧ (∀ s db1 ev s1, get_session eng.db = some s →
        ensure_valid_token o s eng.db = (db1, ev, .ok s1) →
        (sync o eng).1.db.sync_queue = (push_changes o db1).1.sync_queue) := by
  have hent : sync_enter eng =
      ({ eng with status := { eng.status with is_syncing := true } }, true) := by
    simp [sync_enter, h]
  obtain ⟨hp1, hp2, hp3, hp4⟩ := perform_sync_spec o eng.db
  rcases hperf : perform_sync o eng.db with ⟨db1, ev, r⟩
  rw [hperf] at hp1 hp2 hp3 hp4
  dsimp only at hp1 hp2 hp3 hp4
  cases r with
  | error e0 =>
      refine ⟨?_, ?_, ?_, ?_, ?_, ?_⟩
      · simp [sync, hent, hperf]
      · intro e he
        simpa [sync, hent, hperf] using hp1
      · intro e he
        simp [sync, hent, hperf, Except.toBool]
      · intro st hst
        simp [sync, hent, hperf] at hst
      · intro q hq
        simp only [sync, hent, hperf] at hq
        exact hp2 q hq
      · intro s db1x ev1x s1x hgs hens
        simpa [sync, hent, hperf] using hp4 s db1x ev1x s1x hgs hens
  | ok u =>
      cases u
      by_cases hf : o.lastSyncFault = true
      · refine ⟨?_, ?_, ?_, ?_, ?_, ?_⟩
        · simp [sync, hent, hperf, hf]
        · intro e he
          simpa [sync, hent, hperf, hf] using hp1
        · intro e he
          simp [sync, hent, hperf, hf, Except.toBool]
        · intro st hst
          simp [sync, hent, hperf, hf] at hst
        · intro q hq
          simp only [sync, hent, hperf, hf, if_true] at hq
          exact hp2 q hq
        · intro s db1x ev1x s1x hgs hens
          simpa [sync, hent, hperf, hf] using hp4 s db1x ev1x s1x hgs hens
      · have hf' : o.lastSyncFault = false := eq_false_of_ne_true hf
        refine ⟨?_, ?_, ?_, ?_, ?_, ?_⟩
        · simp [sync, hent, hperf, hf']
        · intro e he
          simp [sync, hent, hperf, hf'] at he
        · intro e he
          simp [sync, hent, hperf, hf'] at he
        · intro st hst
          obtain ⟨h1some, h0some⟩ := hp3 rfl
          obtain ⟨s1x, hs1x⟩ := Option.isSome_iff_exists.mp h1some
          obtain ⟨s0x, hs0x⟩ := Option.isSome_iff_exists.mp h0some
          constructor
          · simp [sync, hent, hperf, hf', Except.toBool]
          · simp [sync, hent, hperf, hf', update_last_sync, hs1x, hs0x]
        · intro q hq
          simp only [sync, hent, hperf, hf', Bool.false_eq_true, if_false,
            update_last_sync] at hq
          exact hp2 q hq
        · intro s db1x ev1x s1x hgs hens
          simpa [sync, hent, hperf, hf', update_last_sync] using
            hp4 s db1x ev1x s1x hgs hens

/-- C7, witness: the amended statement on a successful cycle over
`engIdle` — status ends not-syncing and stamped with the completion
time 22. -/
theorem C7_sync_cycle_frame_witness :
    (sync oraclesOk engIdle).1.status.is_syncing = false
    ∧ (sync oraclesOk engIdle).1.status.last_sync_at = some 22 :=
  ⟨(C7_sync_cycle_frame oraclesOk engIdle rfl).1,
    ((C7_sync_cycle_frame oraclesOk engIdle rfl).2.2.2.1
      { is_syncing := false, last_sync_at := some 22
        pending_changes := 0, is_online := true } rfl).1⟩

/-- C8: the single-flight guard. A `sync` invocation that observes a
cycle in flight returns the in-flight status immediately — unchanged
engine state, an *empty* network trace (no second round trip), and a
status whose `is_syncing` is `true`; and the guard itself is one atomic
check-and-set that raises `is_syncing` before any network or store
activity, so a concurrent second caller necessarily lands in the first
case and also observes `is_syncing = true`. -/
theorem C8_single_flight (o : Oracles) (eng : EngineState)
    (h : eng.status.is_syncing = true) :
    sync o eng = (eng, [], .ok eng.status)
    ∧ ∀ eng2 : EngineState, eng2.status.is_syncing = false →
        (sync_enter eng2).2 = true ∧ (sync_enter eng2).1.status.is_syncing = true := by
  refine ⟨by simp [sync, sync_enter, h], ?_⟩
  intro eng2 h2
  constructor <;> simp [sync_enter, h2]

/-- C8, witness: invoking `sync` on `engBusy` (a cycle in flight)
returns the busy state itself with no network events. -/
theorem C8_single_flight_witness :
    sync oraclesOk engBusy = (engBusy, [], .ok engBusy.status) :=
  (C8_single_flight oraclesOk engBusy rfl).1
